import Mathlib

/-!
Verification of the expiry-intelligence core of the Zero-Point Food Waste
Planner backend (`backend/server.py`): the urgency classifier
(`calculate_urgency`), the OCR expiry-date extractor (`extract_expiry_date`),
the image-preprocessing/OCR route (`preprocess_image_for_ocr`,
`extract_expiry_from_image`) and the recipe matcher
(`get_recipe_suggestions`).

Strings are modelled as `List Char` (Python `str` is a character sequence);
machine-level text is assumed ASCII where Python's `str.upper`/`str.lower`
are involved.  External library functions (CPython's
`datetime.fromisoformat`, `dateutil.parser.parse`, CPython's stable
`list.sort`) are modelled explicitly, with their documented semantics, on
the input shapes the program can feed them.
-/

namespace FoodPlanner

/-- Python substring prefix test: `needle` is a prefix of `hay` (character by
character).  Used to model both Python's `in` on strings and `str.find`. -/
def isPrefixL : List Char → List Char → Bool
  | [], _ => true
  | _ :: _, [] => false
  | a :: as, b :: bs => a == b && isPrefixL as bs

/-- Python's substring containment `needle in hay` for strings: some
contiguous run of `hay` equals `needle`. -/
def containsL (needle : List Char) : List Char → Bool
  | [] => isPrefixL needle []
  | c :: rest => isPrefixL needle (c :: rest) || containsL needle rest

/-- ASCII model of Python's `str.lower` on a single character. -/
def lowChar (c : Char) : Char :=
  if 'A' ≤ c && c ≤ 'Z' then Char.ofNat (c.toNat + 32) else c

/-- ASCII model of Python's `str.upper` on a single character. -/
def upChar (c : Char) : Char :=
  if 'a' ≤ c && c ≤ 'z' then Char.ofNat (c.toNat - 32) else c

/-- Result of `datetime.fromisoformat` as far as `calculate_urgency` can
observe it: a timestamp in whole seconds (naive wall-clock) and whether the
parsed datetime carries a UTC offset (is "aware").  `datetime.utcnow()` is
always naive, so subtracting an aware datetime from it raises `TypeError`. -/
structure PyDT where
  ts : Int
  aware : Bool
deriving DecidableEq, Repr

/-- Leap year test (proleptic Gregorian, as in Python's `calendar.isleap`). -/
def isLeap (y : Nat) : Bool :=
  (y % 4 == 0 && y % 100 != 0) || y % 400 == 0

/-- Days in a month, as in Python's `calendar.monthrange(y, m)[1]`
(defined for `1 ≤ m ≤ 12`). -/
def daysInMonth (y m : Nat) : Nat :=
  if m == 2 then (if isLeap y then 29 else 28)
  else if m == 4 || m == 6 || m == 9 || m == 11 then 30
  else 31

/-- Days since 1970-01-01 of a proleptic-Gregorian civil date
(Howard Hinnant's `days_from_civil` algorithm, used to give the model of
`datetime.fromisoformat` a concrete timestamp). -/
def daysFromCivil (y m d : Nat) : Int :=
  let y' : Int := if m ≤ 2 then (y : Int) - 1 else (y : Int)
  let era : Int := y'.fdiv 400
  let yoe : Int := y' - era * 400
  let mp : Int := if m > 2 then (m : Int) - 3 else (m : Int) + 9
  let doy : Int := (153 * mp + 2).fdiv 5 + (d : Int) - 1
  let doe : Int := yoe * 365 + yoe.fdiv 4 - yoe.fdiv 100 + doy
  era * 146097 + doe - 719468

/-- `datetime` validity: what `datetime(year, month, day)` accepts. -/
def validDate (y m d : Nat) : Bool :=
  1 ≤ y && y ≤ 9999 && 1 ≤ m && m ≤ 12 && 1 ≤ d && d ≤ daysInMonth y m

def digitVal (c : Char) : Nat := c.toNat - 48

def isDigitC (c : Char) : Bool := '0' ≤ c && c ≤ '9'

def val2 (a b : Char) : Nat := 10 * digitVal a + digitVal b

def val4 (a b c d : Char) : Nat :=
  1000 * digitVal a + 100 * digitVal b + 10 * digitVal c + digitVal d

/-- Model of CPython's `datetime.fromisoformat` on the sub-grammar
`YYYY-MM-DD`, optionally followed by `<sep>HH:MM:SS`, optionally followed by
a `±HH:MM` UTC offset.  Strings outside this sub-grammar are conservatively
treated as unparseable (real `fromisoformat` raises `ValueError` on them or,
for a few additional time shapes, accepts them; every concrete input used in
the theorems below lies inside the sub-grammar). -/
def fromisoformat (s : List Char) : Option PyDT :=
  match s with
  | y1 :: y2 :: y3 :: y4 :: '-' :: m1 :: m2 :: '-' :: d1 :: d2 :: rest =>
    if isDigitC y1 && isDigitC y2 && isDigitC y3 && isDigitC y4 &&
       isDigitC m1 && isDigitC m2 && isDigitC d1 && isDigitC d2 then
      let y := val4 y1 y2 y3 y4
      let m := val2 m1 m2
      let d := val2 d1 d2
      if validDate y m d then
        let base : Int := daysFromCivil y m d * 86400
        match rest with
        | [] => some ⟨base, false⟩
        | _ :: h1 :: h2 :: ':' :: n1 :: n2 :: ':' :: s1 :: s2 :: rest2 =>
          if isDigitC h1 && isDigitC h2 && isDigitC n1 && isDigitC n2 &&
             isDigitC s1 && isDigitC s2 &&
             val2 h1 h2 ≤ 23 && val2 n1 n2 ≤ 59 && val2 s1 s2 ≤ 59 then
            let t : Int := base + 3600 * val2 h1 h2 + 60 * val2 n1 n2 + val2 s1 s2
            match rest2 with
            | [] => some ⟨t, false⟩
            | [o, o1, o2, ':', o3, o4] =>
              if (o == '+' || o == '-') && isDigitC o1 && isDigitC o2 &&
                 isDigitC o3 && isDigitC o4 &&
                 val2 o1 o2 ≤ 23 && val2 o3 o4 ≤ 59 then
                some ⟨t, true⟩
              else none
            | _ => none
          else none
        | _ => none
      else none
    else none
  | _ => none

/-- Model of `expiry_date_str.replace('Z', '+00:00')` (Python `str.replace`
replaces every occurrence; the needle is the single character `Z`). -/
def pyReplaceZ : List Char → List Char
  | [] => []
  | c :: rest =>
    if c == 'Z' then '+' :: '0' :: '0' :: ':' :: '0' :: '0' :: pyReplaceZ rest
    else c :: pyReplaceZ rest

/-- The urgency label chain of `calculate_urgency` (server.py lines 127-136),
as a function of the whole-day delta. -/
def urgencyLabel (d : Int) : String :=
  if d < 0 then "expired"
  else if d = 0 then "critical"
  else if d ≤ 3 then "critical"
  else if d ≤ 7 then "warning"
  else "safe"

/-- Embedding of `calculate_urgency` (server.py lines 117-140).  `parse`
stands for the external `datetime.fromisoformat`; `now` is the timestamp in
seconds of the naive `datetime.utcnow()`.  A falsy (absent or empty) input
returns `(None, "unknown")` before the `try` block; a parse failure raises
inside the `try` and is absorbed by the bare `except`; an offset-aware parse
result makes `expiry - today` raise `TypeError` (aware minus naive), which
the same `except` absorbs.  `(expiry - today).days` is floor division of the
second span by 86400 (Python `timedelta` normalisation). -/
def calculate_urgency (parse : List Char → Option PyDT) (now : Int)
    (expiry_date_str : Option (List Char)) : Option Int × String :=
  match expiry_date_str with
  | none => (none, "unknown")
  | some s =>
    if s = [] then (none, "unknown")
    else
      match parse (pyReplaceZ s) with
      | none => (none, "unknown")
      | some dt =>
        if dt.aware then (none, "unknown")
        else
          let d := (dt.ts - now).fdiv 86400
          (some d, urgencyLabel d)

theorem urgencyLabel_expired_iff (d : Int) : urgencyLabel d = "expired" ↔ d < 0 := by
  unfold urgencyLabel
  split_ifs with h1 h2 h3 h4 <;> first
    | (constructor
       · intro h
         exact absurd h (by decide)
       · intro h
         omega)
    | (constructor
       · intro _
         omega
       · intro _
         rfl)

theorem urgencyLabel_critical_iff (d : Int) :
    urgencyLabel d = "critical" ↔ 0 ≤ d ∧ d ≤ 3 := by
  unfold urgencyLabel
  split_ifs with h1 h2 h3 h4 <;> first
    | (constructor
       · intro h
         exact absurd h (by decide)
       · intro h
         omega)
    | (constructor
       · intro _
         omega
       · intro _
         rfl)

theorem urgencyLabel_warning_iff (d : Int) :
    urgencyLabel d = "warning" ↔ 4 ≤ d ∧ d ≤ 7 := by
  unfold urgencyLabel
  split_ifs with h1 h2 h3 h4 <;> first
    | (constructor
       · intro h
         exact absurd h (by decide)
       · intro h
         omega)
    | (constructor
       · intro _
         omega
       · intro _
         rfl)

theorem urgencyLabel_safe_iff (d : Int) : urgencyLabel d = "safe" ↔ 7 < d := by
  unfold urgencyLabel
  split_ifs with h1 h2 h3 h4 <;> first
    | (constructor
       · intro h
         exact absurd h (by decide)
       · intro h
         omega)
    | (constructor
       · intro _
         omega
       · intro _
         rfl)

/-- C1 (amended): for every parse model of `datetime.fromisoformat` and every
reference time, `calculate_urgency` returns the floor whole-day delta
`(expiry - now).fdiv 86400` together with the label of the first-match rule
table whenever the date parses to a naive datetime; it degrades to
`(none, "unknown")` when the date is absent, unparseable, or parses to an
offset-aware datetime (whose subtraction from the naive `utcnow` raises and
is absorbed); and the label table is exactly: expired iff d < 0, critical
iff 0 ≤ d ≤ 3, warning iff 4 ≤ d ≤ 7, safe iff d > 7. -/
theorem calculate_urgency_day_delta_and_table
    (parse : List Char → Option PyDT) (now : Int) :
    (calculate_urgency parse now none = (none, "unknown"))
    ∧ (∀ v, parse (pyReplaceZ v) = none →
        calculate_urgency parse now (some v) = (none, "unknown"))
    ∧ (∀ v ts, parse (pyReplaceZ v) = some ⟨ts, true⟩ →
        calculate_urgency parse now (some v) = (none, "unknown"))
    ∧ (∀ v ts, v ≠ [] → parse (pyReplaceZ v) = some ⟨ts, false⟩ →
        calculate_urgency parse now (some v)
          = (some ((ts - now).fdiv 86400), urgencyLabel ((ts - now).fdiv 86400)))
    ∧ (∀ d : Int,
        (urgencyLabel d = "expired" ↔ d < 0)
        ∧ (urgencyLabel d = "critical" ↔ 0 ≤ d ∧ d ≤ 3)
        ∧ (urgencyLabel d = "warning" ↔ 4 ≤ d ∧ d ≤ 7)
        ∧ (urgencyLabel d = "safe" ↔ 7 < d)) := by
  refine ⟨rfl, ?_, ?_, ?_, ?_⟩
  · intro v h
    by_cases hv : v = [] <;> simp [calculate_urgency, hv, h]
  · intro v ts h
    by_cases hv : v = [] <;> simp [calculate_urgency, hv, h]
  · intro v ts hv h
    simp [calculate_urgency, hv, h]
  · intro d
    exact ⟨urgencyLabel_expired_iff d, urgencyLabel_critical_iff d,
      urgencyLabel_warning_iff d, urgencyLabel_safe_iff d⟩

theorem calculate_urgency_day_delta_and_table_witness :
    calculate_urgency fromisoformat 0 (some "2030-01-10".data)
      = (some 21924, "safe") := by
  have h := (calculate_urgency_day_delta_and_table fromisoformat 0).2.2.2.1
    "2030-01-10".data 1894233600 (by decide) (by decide)
  rw [h]
  decide

/-- C1 counterexample: the expiry string `2030-01-01T00:00:00Z` is present
and parseable (the code's `replace('Z', '+00:00')` turns it into a valid ISO
string that `fromisoformat` accepts, as an offset-aware datetime), yet
`calculate_urgency` yields `(none, "unknown")` — refuting the claim that
`unknown` is returned iff the date is absent or unparseable. -/
theorem calculate_urgency_aware_unknown_cex :
    (fromisoformat (pyReplaceZ "2030-01-01T00:00:00Z".data)).isSome = true
    ∧ (fromisoformat (pyReplaceZ "2030-01-01T00:00:00Z".data)).map PyDT.aware
        = some true
    ∧ calculate_urgency fromisoformat 0 (some "2030-01-01T00:00:00Z".data)
        = (none, "unknown") := by
  refine ⟨by decide, by decide, by decide⟩

/-- C7: `calculate_urgency` is total and never errors: every input — absent
date, empty string, arbitrary unparseable string — produces a well-formed
result, and absence or parse failure degrades to `(none, "unknown")`. -/
theorem calculate_urgency_never_fails
    (parse : List Char → Option PyDT) (now : Int) (s : Option (List Char)) :
    (calculate_urgency parse now s = (none, "unknown")
      ∨ ∃ d : Int, calculate_urgency parse now s = (some d, urgencyLabel d))
    ∧ (s = none → calculate_urgency parse now s = (none, "unknown"))
    ∧ (∀ v, s = some v → parse (pyReplaceZ v) = none →
        calculate_urgency parse now s = (none, "unknown")) := by
  refine ⟨?_, ?_, ?_⟩
  · match s with
    | none => exact Or.inl rfl
    | some v =>
      by_cases hv : v = []
      · exact Or.inl (by simp [calculate_urgency, hv])
      · match hp : parse (pyReplaceZ v) with
        | none => exact Or.inl (by simp [calculate_urgency, hv, hp])
        | some dt =>
          by_cases ha : dt.aware
          · exact Or.inl (by simp [calculate_urgency, hv, hp, ha])
          · exact Or.inr ⟨(dt.ts - now).fdiv 86400,
              by simp [calculate_urgency, hv, hp, ha]⟩
  · intro h
    subst h
    rfl
  · intro v hs h
    subst hs
    by_cases hv : v = [] <;> simp [calculate_urgency, hv, h]

theorem calculate_urgency_never_fails_witness :
    calculate_urgency fromisoformat 0 (some "NOT A DATE".data) = (none, "unknown")
    ∧ calculate_urgency fromisoformat 0 (some []) = (none, "unknown")
    ∧ calculate_urgency fromisoformat 0 none = (none, "unknown") := by
  refine ⟨(calculate_urgency_never_fails fromisoformat 0
      (some "NOT A DATE".data)).2.2 "NOT A DATE".data rfl (by decide),
    (calculate_urgency_never_fails fromisoformat 0 (some [])).2.2 [] rfl
      (by decide),
    (calculate_urgency_never_fails fromisoformat 0 none).2.1 rfl⟩

/-- Python substring containment `needle in hay` lifted to `String`. -/
def pyInS (needle hay : String) : Bool := containsL needle.data hay.data

/-- Model of Python `str.lower` (ASCII). -/
def strLower (s : String) : String := ⟨s.data.map lowChar⟩

/-- The availability predicate of `get_recipe_suggestions` (server.py line
478): `any(avail in ing or ing in avail for avail in items)`. -/
def ingMatches (items : List String) (ing : String) : Bool :=
  items.any fun avail => pyInS avail ing || pyInS ing avail

/-- The per-recipe fields computed by the matcher loop. -/
structure MatchResult where
  available : List String
  missing : List String
  expiring_used : List String
  score : Int
  waste_prevented : Nat
deriving DecidableEq, Repr

/-- Embedding of the per-recipe body of `get_recipe_suggestions` (server.py
lines 475-491): lowercase the recipe's ingredients, flag availability by
bidirectional substring containment against the (already lowercased)
inventory names, compute `missing` by Python list membership
(`ing not in available`), `expiring_used` by the same containment test
against the expiring names, and the score
`len(expiring_used) * 10 + len(available) - len(missing)`. -/
def computeMatch (available_items expiring_items : List String)
    (ingredients : List String) : MatchResult :=
  let ri := ingredients.map strLower
  let available := ri.filter fun ing => ingMatches available_items ing
  let missing := ri.filter fun ing => !(available.contains ing)
  let expiring_used := available.filter fun ing => ingMatches expiring_items ing
  { available := available
    missing := missing
    expiring_used := expiring_used
    score := (expiring_used.length : Int) * 10 + available.length - missing.length
    waste_prevented := expiring_used.length }

theorem contains_filter_of_mem (p : String → Bool) (l : List String)
    (x : String) (hx : x ∈ l) : (l.filter p).contains x = p x := by
  by_cases hpx : p x = true
  · have hm : x ∈ l.filter p := List.mem_filter.mpr ⟨hx, hpx⟩
    simp [List.contains, List.elem_iff, hm, hpx]
  · have hm : x ∉ l.filter p := by
      intro hmem
      exact hpx (List.mem_filter.mp hmem).2
    simp only [Bool.not_eq_true] at hpx
    simp [List.contains, List.elem_iff, hm, hpx]

theorem missing_eq_filter_not (available_items : List String)
    (ri : List String) :
    (ri.filter fun ing =>
        !((ri.filter fun i => ingMatches available_items i).contains ing))
      = ri.filter fun ing => !(ingMatches available_items ing) := by
  apply List.filter_congr
  intro x hx
  rw [contains_filter_of_mem _ _ _ hx]

/-- C2: an ingredient is flagged available iff some inventory name is a
(case-insensitively lowered) substring of the ingredient or conversely;
missing is exactly the rest; expiring-used is the available ingredients
matching the expiring set the same way; the score is
`10·|expiring-used| + |available| − |missing|`; and the worked example from
the specification evaluates exactly as stated. -/
theorem computeMatch_spec (inv exp ings : List String) :
    ((∀ ing, ing ∈ (computeMatch (inv.map strLower) (exp.map strLower) ings).available
        ↔ ing ∈ ings.map strLower
          ∧ ∃ a ∈ inv.map strLower, pyInS a ing = true ∨ pyInS ing a = true)
    ∧ (∀ ing, ing ∈ (computeMatch (inv.map strLower) (exp.map strLower) ings).missing
        ↔ ing ∈ ings.map strLower
          ∧ ¬∃ a ∈ inv.map strLower, pyInS a ing = true ∨ pyInS ing a = true)
    ∧ (∀ ing, ing ∈ (computeMatch (inv.map strLower) (exp.map strLower) ings).expiring_used
        ↔ ing ∈ (computeMatch (inv.map strLower) (exp.map strLower) ings).available
          ∧ ∃ e ∈ exp.map strLower, pyInS e ing = true ∨ pyInS ing e = true)
    ∧ (computeMatch (inv.map strLower) (exp.map strLower) ings).score
        = ((computeMatch (inv.map strLower) (exp.map strLower) ings).expiring_used.length : Int) * 10
          + (computeMatch (inv.map strLower) (exp.map strLower) ings).available.length
          - (computeMatch (inv.map strLower) (exp.map strLower) ings).missing.length
    ∧ (computeMatch (inv.map strLower) (exp.map strLower) ings).waste_prevented
        = (computeMatch (inv.map strLower) (exp.map strLower) ings).expiring_used.length)
    ∧ computeMatch (["rice", "lentils"].map strLower) (["lentils"].map strLower)
        ["rice", "lentils", "onion"]
      = ⟨["rice", "lentils"], ["onion"], ["lentils"], 11, 1⟩ := by
  constructor
  · refine ⟨?_, ?_, ?_, rfl, rfl⟩
    · intro ing
      simp [computeMatch, List.mem_filter, ingMatches, List.any_eq_true,
        and_congr_right_iff]
    · intro ing
      show ing ∈ (ings.map strLower).filter _ ↔ _
      rw [missing_eq_filter_not]
      simp [List.mem_filter, ingMatches, List.any_eq_true]
    · intro ing
      simp only [computeMatch, List.mem_filter, ingMatches, List.any_eq_true,
        Bool.or_eq_true]
  · decide

/-- C10: the available and missing lists partition the lowercased ingredient
list — both are order-preserving filters of it, every lowercased ingredient
lands in exactly one of the two, their lengths sum to the ingredient count,
and consequently the score equals
`10·wastePrevented + 2·|available| − |ingredients|`. -/
theorem computeMatch_partition (ai ei ings : List String) :
    ((computeMatch ai ei ings).available
        = (ings.map strLower).filter (fun ing => ingMatches ai ing))
    ∧ ((computeMatch ai ei ings).missing
        = (ings.map strLower).filter (fun ing => !(ingMatches ai ing)))
    ∧ ((computeMatch ai ei ings).available.length
        + (computeMatch ai ei ings).missing.length = ings.length)
    ∧ (∀ ing ∈ ings.map strLower,
        (ing ∈ (computeMatch ai ei ings).available
            ∧ ing ∉ (computeMatch ai ei ings).missing)
        ∨ (ing ∈ (computeMatch ai ei ings).missing
            ∧ ing ∉ (computeMatch ai ei ings).available))
    ∧ (computeMatch ai ei ings).score
        = 10 * ((computeMatch ai ei ings).waste_prevented : Int)
          + 2 * (computeMatch ai ei ings).available.length - ings.length := by
  have hmiss : (computeMatch ai ei ings).missing
      = (ings.map strLower).filter (fun ing => !(ingMatches ai ing)) :=
    missing_eq_filter_not ai (ings.map strLower)
  have hav : (computeMatch ai ei ings).available
      = (ings.map strLower).filter (fun ing => ingMatches ai ing) := rfl
  have hlen : (computeMatch ai ei ings).available.length
      + (computeMatch ai ei ings).missing.length = ings.length := by
    rw [hav, hmiss]
    have hpart := List.length_eq_length_filter_add (l := ings.map strLower)
      (fun ing => ingMatches ai ing)
    have hml : (ings.map strLower).length = ings.length := List.length_map _ _
    omega
  refine ⟨hav, hmiss, hlen, ?_, ?_⟩
  · intro ing hing
    by_cases h : ingMatches ai ing = true
    · refine Or.inl ⟨?_, ?_⟩
      · rw [hav]
        exact List.mem_filter.mpr ⟨hing, h⟩
      · rw [hmiss]
        intro hc
        have := (List.mem_filter.mp hc).2
        simp [h] at this
    · refine Or.inr ⟨?_, ?_⟩
      · rw [hmiss]
        refine List.mem_filter.mpr ⟨hing, ?_⟩
        simp [h]
      · rw [hav]
        intro hc
        exact h (List.mem_filter.mp hc).2
  · have hscore : (computeMatch ai ei ings).score
        = ((computeMatch ai ei ings).expiring_used.length : Int) * 10
          + (computeMatch ai ei ings).available.length
          - (computeMatch ai ei ings).missing.length := rfl
    have hwp : (computeMatch ai ei ings).waste_prevented
        = (computeMatch ai ei ings).expiring_used.length := rfl
    rw [hscore, hwp]
    omega

/-- A catalog recipe: name and ordered ingredient list.  The remaining
fields of `RECIPE_DATABASE` entries (steps, cooking_time, difficulty,
cuisine, meal_type) are carried through the matcher unmodified and play no
role in any verified property, so they are not embedded. -/
structure RecipeData where
  name : String
  ingredients : List String
deriving DecidableEq, Repr

/-- The static recipe catalog `RECIPE_DATABASE` (server.py lines 212-285),
names and ingredient lists. -/
def RECIPE_DATABASE : List RecipeData :=
  [⟨"Vegetable Khichdi",
    ["rice", "lentils", "onion", "tomato", "potato", "carrot", "peas",
     "ginger", "turmeric"]⟩,
   ⟨"Dal Tadka",
    ["lentils", "onion", "tomato", "garlic", "ginger", "cumin", "turmeric",
     "ghee"]⟩,
   ⟨"Poha",
    ["poha", "onion", "potato", "peanuts", "turmeric", "curry leaves",
     "lemon"]⟩,
   ⟨"Vegetable Pulao",
    ["rice", "carrot", "peas", "beans", "onion", "bay leaf", "cumin",
     "ghee"]⟩,
   ⟨"Paneer Bhurji",
    ["paneer", "onion", "tomato", "capsicum", "turmeric", "chili powder",
     "oil"]⟩,
   ⟨"Aloo Paratha",
    ["wheat flour", "potato", "onion", "green chili", "coriander", "ghee"]⟩,
   ⟨"Curd Rice",
    ["rice", "curd", "milk", "cucumber", "coriander", "mustard seeds",
     "curry leaves"]⟩,
   ⟨"Mixed Vegetable Curry",
    ["potato", "carrot", "beans", "peas", "onion", "tomato", "coconut",
     "spices"]⟩]

/-- One entry of the `recipe_matches` list built by `get_recipe_suggestions`.
`idx` records the recipe's position in the catalog (the list index the
Python loop enumerates); it is bookkeeping used to state the stable
tie-break. -/
structure MatchEntry where
  idx : Nat
  recipe : RecipeData
  available : List String
  missing : List String
  score : Int
  waste_prevented : Nat
deriving DecidableEq, Repr

/-- Build the `recipe_matches` list (server.py lines 473-491), tagging each
entry with its catalog position starting at `i`. -/
def buildMatches (ai ei : List String) (i : Nat) :
    List RecipeData → List MatchEntry
  | [] => []
  | r :: rs =>
    let m := computeMatch ai ei r.ingredients
    ⟨i, r, m.available, m.missing, m.score, m.waste_prevented⟩
      :: buildMatches ai ei (i + 1) rs

/-- Insert an entry into a score-descending list, after the entries of
strictly greater or equal score.  `sortEntries` below is then CPython's
stable `list.sort(key=score, reverse=True)` (server.py line 494): the
stable descending permutation of a list is unique, and insertion of each
element before strictly-smaller scores and after greater-or-equal ones
realises it. -/
def insertEntry (a : MatchEntry) : List MatchEntry → List MatchEntry
  | [] => [a]
  | b :: t => if b.score ≤ a.score then a :: b :: t else b :: insertEntry a t

/-- Hold on: CPython's stable sort keeps the ORIGINAL relative order of
equal-score entries.  When `insertEntry` inserts `a` (which originates
earlier in the list than everything already inserted) it must therefore
place `a` BEFORE entries of equal score, which the `b.score ≤ a.score`
test does.  Sort by repeated insertion from the right. -/
def sortEntries : List MatchEntry → List MatchEntry
  | [] => []
  | a :: t => insertEntry a (sortEntries t)

/-- Embedding of `get_recipe_suggestions` (server.py lines 457-513) from the
point where the inventory snapshot is known: lowercase the inventory and
expiring names (lines 467, 470), score every catalog recipe in order, sort
by descending score with CPython's stable sort, and truncate to
`max_results`. -/
def get_recipe_suggestions (catalog : List RecipeData)
    (inventory_names expiring_names : List String) (max_results : Nat) :
    List MatchEntry :=
  let ai := inventory_names.map strLower
  let ei := expiring_names.map strLower
  (sortEntries (buildMatches ai ei 0 catalog)).take max_results

/-- The ranking order: strictly larger score first, catalog position as the
tie-break. -/
def rankedBefore (a b : MatchEntry) : Prop :=
  b.score < a.score ∨ (a.score = b.score ∧ a.idx < b.idx)

theorem insertEntry_perm (a : MatchEntry) (l : List MatchEntry) :
    (insertEntry a l).Perm (a :: l) := by
  induction l with
  | nil => exact List.Perm.refl _
  | cons b t ih =>
    unfold insertEntry
    by_cases h : b.score ≤ a.score
    · simp only [h, if_true]
      exact List.Perm.refl _
    · simp only [h, if_false]
      exact (ih.cons b).trans (List.Perm.swap a b t)

theorem sortEntries_perm (l : List MatchEntry) : (sortEntries l).Perm l := by
  induction l with
  | nil => exact List.Perm.refl _
  | cons a t ih =>
    exact (insertEntry_perm a (sortEntries t)).trans (ih.cons a)

theorem mem_insertEntry {x a : MatchEntry} {l : List MatchEntry}
    (h : x ∈ insertEntry a l) : x = a ∨ x ∈ l :=
  List.mem_cons.mp ((insertEntry_perm a l).mem_iff.mp h)

theorem rankedBefore_trans {a b c : MatchEntry} (h1 : rankedBefore a b)
    (h2 : rankedBefore b c) : rankedBefore a c := by
  rcases h1 with h1 | ⟨h1e, h1i⟩ <;> rcases h2 with h2 | ⟨h2e, h2i⟩
  · exact Or.inl (lt_trans h2 h1)
  · exact Or.inl (by omega)
  · exact Or.inl (by omega)
  · exact Or.inr ⟨by omega, by omega⟩

theorem insertEntry_pairwise {a : MatchEntry} {l : List MatchEntry}
    (hl : l.Pairwise rankedBefore) (ha : ∀ y ∈ l, a.idx < y.idx) :
    (insertEntry a l).Pairwise rankedBefore := by
  induction l with
  | nil => exact List.pairwise_singleton _ _
  | cons b t ih =>
    rw [List.pairwise_cons] at hl
    unfold insertEntry
    by_cases h : b.score ≤ a.score
    · simp only [h, if_true]
      rw [List.pairwise_cons]
      refine ⟨?_, List.pairwise_cons.mpr hl⟩
      intro y hy
      rcases List.mem_cons.mp hy with rfl | hy
      · rcases lt_or_eq_of_le h with hlt | heq
        · exact Or.inl hlt
        · exact Or.inr ⟨heq.symm, ha y (by simp)⟩
      · have hb : rankedBefore a b := by
          rcases lt_or_eq_of_le h with hlt | heq
          · exact Or.inl hlt
          · exact Or.inr ⟨heq.symm, ha b (by simp)⟩
        exact rankedBefore_trans hb (hl.1 y hy)
    · simp only [h, if_false]
      rw [List.pairwise_cons]
      refine ⟨?_, ih hl.2 (fun y hy => ha y (by simp [hy]))⟩
      intro y hy
      rcases mem_insertEntry hy with rfl | hy
      · exact Or.inl (by omega)
      · exact hl.1 y hy

theorem sortEntries_pairwise {l : List MatchEntry}
    (h : l.Pairwise fun x y => x.idx < y.idx) :
    (sortEntries l).Pairwise rankedBefore := by
  induction l with
  | nil => exact List.Pairwise.nil
  | cons a t ih =>
    rw [List.pairwise_cons] at h
    refine insertEntry_pairwise (ih h.2) ?_
    intro y hy
    exact h.1 y ((sortEntries_perm t).mem_iff.mp hy)

theorem buildMatches_idx_lt (ai ei : List String) (rs : List RecipeData)
    (i : Nat) : ∀ e ∈ buildMatches ai ei i rs, i ≤ e.idx := by
  induction rs generalizing i with
  | nil => intro e he; cases he
  | cons r rs ih =>
    intro e he
    rw [buildMatches] at he
    rcases List.mem_cons.mp he with rfl | he
    · exact Nat.le_refl _
    · have := ih (i + 1) e he
      omega

theorem buildMatches_pairwise_idx (ai ei : List String)
    (rs : List RecipeData) (i : Nat) :
    (buildMatches ai ei i rs).Pairwise fun x y => x.idx < y.idx := by
  induction rs generalizing i with
  | nil => exact List.Pairwise.nil
  | cons r rs ih =>
    rw [buildMatches, List.pairwise_cons]
    refine ⟨?_, ih (i + 1)⟩
    intro y hy
    have h2 := buildMatches_idx_lt ai ei rs (i + 1) y hy
    show i < y.idx
    omega

theorem buildMatches_length (ai ei : List String) (rs : List RecipeData)
    (i : Nat) : (buildMatches ai ei i rs).length = rs.length := by
  induction rs generalizing i with
  | nil => rfl
  | cons r rs ih => simp [buildMatches, ih]

/-- C6: the matcher output is sorted by descending score with ties broken by
catalog definition order, contains exactly the scored catalog up to the
truncation (the sorted list is a permutation of the per-recipe match list),
has length `min N |catalog|` (at most N, never padded), and repeated calls
with identical inputs return the identical list. -/
theorem get_recipe_suggestions_ranking (catalog : List RecipeData)
    (inv exp : List String) (N : Nat) :
    (get_recipe_suggestions catalog inv exp N).Pairwise rankedBefore
    ∧ (get_recipe_suggestions catalog inv exp N).length = min N catalog.length
    ∧ (sortEntries (buildMatches (inv.map strLower) (exp.map strLower) 0
        catalog)).Perm
        (buildMatches (inv.map strLower) (exp.map strLower) 0 catalog)
    ∧ get_recipe_suggestions catalog inv exp N
        = get_recipe_suggestions catalog inv exp N := by
  have hsorted := sortEntries_pairwise
    (buildMatches_pairwise_idx (inv.map strLower) (exp.map strLower) catalog 0)
  have hperm := sortEntries_perm
    (buildMatches (inv.map strLower) (exp.map strLower) 0 catalog)
  refine ⟨?_, ?_, hperm, rfl⟩
  · exact hsorted.sublist (List.take_sublist _ _)
  · show ((sortEntries _).take N).length = _
    rw [List.length_take, hperm.length_eq, buildMatches_length]

/-- Word character for Python's `\b` (ASCII `[A-Za-z0-9_]`). -/
def isWordC (c : Char) : Bool :=
  isDigitC c || ('A' ≤ c && c ≤ 'Z') || ('a' ≤ c && c ≤ 'z') || c == '_'

/-- Whitespace for Python's `\s` (ASCII `[ \t\n\r\f\v]`). -/
def isSpaceC (c : Char) : Bool :=
  c == ' ' || c == '\t' || c == '\n' || c == '\r' ||
  c == '\x0b' || c == '\x0c'

/-- A `<sep>` separator of the date regexes. -/
def isSepC (c : Char) : Bool := c == '/' || c == '-'

/-- `\b` before a digit: the previous character (if any) is not a word
character. -/
def bdryBefore (prev : Option Char) : Bool :=
  match prev with
  | none => true
  | some c => !(isWordC c)

/-- `\b` after a digit: the next character (if any) is not a word
character. -/
def bdryAfter (rest : List Char) : Bool :=
  match rest with
  | [] => true
  | c :: _ => !(isWordC c)

/-- The numeric content of a regex match, per date pattern shape.  The
separators are not recorded: dateutil tokenises `-`, `/` (and stray mixed
separators, which are in its JUMP list) away, so parsing depends only on
the digit groups and the month word. -/
inductive DateMatch where
  | dmy (a b y : Nat)
  | ymd (y b c : Nat)
  | dMonY (d m y : Nat)
  | my (a y : Nat)
deriving DecidableEq, Repr

/-- Anchored match of `\b(\d{2})<sep>(\d{2})<sep>(\d{4})\b` at the head of the
list, given the preceding character. -/
def match1At (prev : Option Char) (cs : List Char) : Option DateMatch :=
  match cs with
  | a1 :: a2 :: s1 :: b1 :: b2 :: s2 :: y1 :: y2 :: y3 :: y4 :: rest =>
    if bdryBefore prev && isDigitC a1 && isDigitC a2 && isSepC s1 &&
       isDigitC b1 && isDigitC b2 && isSepC s2 && isDigitC y1 &&
       isDigitC y2 && isDigitC y3 && isDigitC y4 && bdryAfter rest then
      some (DateMatch.dmy (val2 a1 a2) (val2 b1 b2) (val4 y1 y2 y3 y4))
    else none
  | _ => none

/-- Anchored match of `\b(\d{4})<sep>(\d{2})<sep>(\d{2})\b`. -/
def match2At (prev : Option Char) (cs : List Char) : Option DateMatch :=
  match cs with
  | y1 :: y2 :: y3 :: y4 :: s1 :: b1 :: b2 :: s2 :: c1 :: c2 :: rest =>
    if bdryBefore prev && isDigitC y1 && isDigitC y2 && isDigitC y3 &&
       isDigitC y4 && isSepC s1 && isDigitC b1 && isDigitC b2 && isSepC s2 &&
       isDigitC c1 && isDigitC c2 && bdryAfter rest then
      some (DateMatch.ymd (val4 y1 y2 y3 y4) (val2 b1 b2) (val2 c1 c2))
    else none
  | _ => none

/-- Consume a maximal nonempty run of whitespace (`\s+` whose continuation
must begin with a non-space character, so greedy matching is forced). -/
def eatSpacesAll : List Char → List Char
  | [] => []
  | c :: rest => if isSpaceC c then eatSpacesAll rest else c :: rest

def eatSpaces1 : List Char → Option (List Char)
  | [] => none
  | c :: rest => if isSpaceC c then some (eatSpacesAll rest) else none

/-- The month-abbreviation alternation
`(JAN|FEB|MAR|APR|MAY|JUN|JUL|AUG|SEP|OCT|NOV|DEC)`. -/
def monthAt : List Char → Option (Nat × List Char)
  | 'J' :: 'A' :: 'N' :: r => some (1, r)
  | 'F' :: 'E' :: 'B' :: r => some (2, r)
  | 'M' :: 'A' :: 'R' :: r => some (3, r)
  | 'A' :: 'P' :: 'R' :: r => some (4, r)
  | 'M' :: 'A' :: 'Y' :: r => some (5, r)
  | 'J' :: 'U' :: 'N' :: r => some (6, r)
  | 'J' :: 'U' :: 'L' :: r => some (7, r)
  | 'A' :: 'U' :: 'G' :: r => some (8, r)
  | 'S' :: 'E' :: 'P' :: r => some (9, r)
  | 'O' :: 'C' :: 'T' :: r => some (10, r)
  | 'N' :: 'O' :: 'V' :: r => some (11, r)
  | 'D' :: 'E' :: 'C' :: r => some (12, r)
  | _ => none

/-- Anchored match of
`\b(\d{2})\s+(JAN|FEB|MAR|APR|MAY|JUN|JUL|AUG|SEP|OCT|NOV|DEC)\s+(\d{4})\b`. -/
def match3At (prev : Option Char) (cs : List Char) : Option DateMatch :=
  match cs with
  | a1 :: a2 :: rest =>
    if bdryBefore prev && isDigitC a1 && isDigitC a2 then
      match eatSpaces1 rest with
      | some rest2 =>
        match monthAt rest2 with
        | some (m, rest3) =>
          match eatSpaces1 rest3 with
          | some rest4 =>
            match rest4 with
            | y1 :: y2 :: y3 :: y4 :: rest5 =>
              if isDigitC y1 && isDigitC y2 && isDigitC y3 && isDigitC y4 &&
                 bdryAfter rest5 then
                some (DateMatch.dMonY (val2 a1 a2) m (val4 y1 y2 y3 y4))
              else none
            | _ => none
          | none => none
        | none => none
      | none => none
    else none
  | _ => none

/-- Anchored match of `\b(\d{2})<sep>(\d{4})\b`. -/
def match4At (prev : Option Char) (cs : List Char) : Option DateMatch :=
  match cs with
  | a1 :: a2 :: s1 :: y1 :: y2 :: y3 :: y4 :: rest =>
    if bdryBefore prev && isDigitC a1 && isDigitC a2 && isSepC s1 &&
       isDigitC y1 && isDigitC y2 && isDigitC y3 && isDigitC y4 &&
       bdryAfter rest then
      some (DateMatch.my (val2 a1 a2) (val4 y1 y2 y3 y4))
    else none
  | _ => none

/-- `re.search` for one of the anchored patterns: try every start position
from left to right (carrying the preceding character for `\b`) and return
the leftmost match. -/
def reSearch (pat : Option Char → List Char → Option DateMatch) :
    Option Char → List Char → Option DateMatch
  | _, [] => none
  | prev, c :: rest =>
    match pat prev (c :: rest) with
    | some m => some m
    | none => reSearch pat (some c) rest

/-- The four date patterns in the fixed priority order of the `patterns`
list (server.py lines 169-174). -/
def patList : List (Option Char → List Char → Option DateMatch) :=
  [match1At, match2At, match3At, match4At]

/-- The local calendar date of the call (`datetime.now()`), which dateutil
uses to fill fields absent from the matched string. -/
structure Date3 where
  y : Nat
  m : Nat
  d : Nat
deriving DecidableEq, Repr

def mkDate (y m d : Nat) : Option Date3 :=
  if validDate y m d then some ⟨y, m, d⟩ else none

/-- Missing-day fill of dateutil's `_build_naive`: the default day (today's)
is capped to the last day of the resolved month; an out-of-range month makes
the datetime construction raise, which the caller's `except` absorbs. -/
def fillDay (today : Date3) (yy mm : Nat) : Option Date3 :=
  if 1 ≤ mm && mm ≤ 12 then
    mkDate yy mm (if today.d > daysInMonth yy mm then daysInMonth yy mm else today.d)
  else none

/-- Model of `dateutil.parser.parse(date_str, dayfirst=True)` on the four
shapes the regexes can produce, following `_ymd.resolve_ymd` (every shape
contains a four-digit group, so `century_specified` holds and no two-digit
year conversion applies) and `_build_naive`'s defaulting from today's date,
followed by `datetime` range validation.  Returns the resolved calendar
date (the time component is always midnight: the matched strings carry no
time and `parse`'s default zeroes it). -/
def parseMatch (today : Date3) : DateMatch → Option Date3
  | DateMatch.dmy a b y =>
    if a > 31 then (if y ≤ 12 then mkDate a y b else mkDate a b y)
    else if a > 12 || b ≤ 12 then mkDate y b a
    else mkDate y a b
  | DateMatch.ymd y b c =>
    if c ≤ 12 then mkDate y c b else mkDate y b c
  | DateMatch.dMonY d m y => mkDate y m d
  | DateMatch.my a y =>
    if a > 31 then fillDay today a y
    else if y > 31 then fillDay today y a
    else if y ≤ 12 then mkDate today.y y a
    else mkDate today.y a y

def pad2 (n : Nat) : String :=
  if n < 10 then "0" ++ toString n else toString n

def pad4 (n : Nat) : String :=
  if n < 10 then "000" ++ toString n
  else if n < 100 then "00" ++ toString n
  else if n < 1000 then "0" ++ toString n
  else toString n

/-- `parsed_date.isoformat()` for a midnight datetime. -/
def isoOf (dt : Date3) : String :=
  pad4 dt.y ++ "-" ++ pad2 dt.m ++ "-" ++ pad2 dt.d ++ "T00:00:00"

/-- The inner pattern loop of `extract_expiry_date` (server.py lines
183-192) over a window: for each pattern in priority order, `re.search`;
on a match, try to parse it; a parse failure (`except: continue`) moves on
to the next pattern of the same window. -/
def tryPatternsAux (today : Date3) (w : List Char) :
    List (Option Char → List Char → Option DateMatch) → Option String
  | [] => none
  | p :: ps =>
    match reSearch p none w with
    | some m =>
      match parseMatch today m with
      | some dt => some (isoOf dt)
      | none => tryPatternsAux today w ps
    | none => tryPatternsAux today w ps

def tryPatterns (today : Date3) (w : List Char) : Option String :=
  tryPatternsAux today w patList

/-- Python `text.find(keyword)` combined with the 50-character slice
`text[idx:idx+50]`: the window starting at the first occurrence of the
keyword, or `none` when the keyword does not occur. -/
def findWindow (kw : List Char) : List Char → Option (List Char)
  | [] => if kw.isEmpty then some [] else none
  | c :: rest =>
    if isPrefixL kw (c :: rest) then some ((c :: rest).take 50)
    else findWindow kw rest

/-- The outer keyword loop of `extract_expiry_date` (server.py lines
177-192): keywords in list order; a keyword present in the text gets its
window tried; failure moves to the next keyword. -/
def keywordLoop (step : List Char → Option String) (t : List Char) :
    List (List Char) → Option String
  | [] => none
  | kw :: kws =>
    match findWindow kw t with
    | some w =>
      match step w with
      | some r => some r
      | none => keywordLoop step t kws
    | none => keywordLoop step t kws

/-- The fixed keyword priority list (server.py line 166). -/
def keywordList : List (List Char) :=
  ["EXP".data, "EXPIRY".data, "BEST BEFORE".data, "USE BY".data,
   "BBD".data, "BEST BY".data, "MFG".data, "MFD".data, "PACKED ON".data]

/-- Embedding of `extract_expiry_date` (server.py lines 161-205): uppercase
the text, run the keyword loop, and fall back to the same pattern loop over
the entire text. -/
def extract_expiry_date (today : Date3) (text : List Char) : Option String :=
  let t := text.map upChar
  match keywordLoop (tryPatterns today) t keywordList with
  | some r => some r
  | none => tryPatterns today t

/-- The pattern loop as the specification describes it: the first pattern
that matches within the window is used and the remaining patterns for that
keyword are not tried — a parse failure discards the whole window instead of
falling through to the next pattern. -/
def tryPatternsClaimAux (today : Date3) (w : List Char) :
    List (Option Char → List Char → Option DateMatch) → Option String
  | [] => none
  | p :: ps =>
    match reSearch p none w with
    | some m => Option.map isoOf (parseMatch today m)
    | none => tryPatternsClaimAux today w ps

def tryPatternsClaim (today : Date3) (w : List Char) : Option String :=
  tryPatternsClaimAux today w patList

/-- The extractor as the claim describes it (window resolution by
`tryPatternsClaim`), for comparison with the code's behaviour. -/
def extract_expiry_date_claim (today : Date3) (text : List Char) :
    Option String :=
  let t := text.map upChar
  match keywordLoop (tryPatternsClaim today) t keywordList with
  | some r => some r
  | none => tryPatternsClaim today t

/-- One keyword's attempt: window (if the keyword occurs) then pattern
loop. -/
def kwAttempt (today : Date3) (t kw : List Char) : Option String :=
  match findWindow kw t with
  | some w => tryPatterns today w
  | none => none

/-- The response assembly of the `/ocr/expiry` route (server.py lines
434-448), from the recognised text on: `confidence` is `"high"` whenever a
date was extracted (by keyword or fallback) and `"low"` otherwise;
`detected_text` is `text[:200]`. -/
structure OCRResp where
  success : Bool
  expiry_date : Option String
  confidence : String
  detected_text : List Char
deriving DecidableEq, Repr

def extract_expiry_from_image (today : Date3) (text : List Char) : OCRResp :=
  match extract_expiry_date today text with
  | some d => ⟨true, some d, "high", text.take 200⟩
  | none => ⟨false, none, "low", text.take 200⟩

theorem tryPatternsAux_eq_findSome (today : Date3) (w : List Char)
    (ps : List (Option Char → List Char → Option DateMatch)) :
    tryPatternsAux today w ps
      = ps.findSome? fun p =>
          (reSearch p none w).bind fun m => Option.map isoOf (parseMatch today m) := by
  induction ps with
  | nil => rfl
  | cons p ps ih =>
    rw [tryPatternsAux, List.findSome?_cons]
    cases hs : reSearch p none w with
    | none => simp [ih]
    | some m =>
      cases hp : parseMatch today m with
      | none => simp [hp, ih]
      | some d => simp [hp]

theorem keywordLoop_eq_findSome (today : Date3) (t : List Char)
    (kws : List (List Char)) :
    keywordLoop (tryPatterns today) t kws = kws.findSome? (kwAttempt today t) := by
  induction kws with
  | nil => rfl
  | cons kw kws ih =>
    rw [keywordLoop, List.findSome?_cons]
    cases hw : findWindow kw t with
    | none => simp [kwAttempt, hw, ih]
    | some w =>
      cases hs : tryPatterns today w with
      | none => simp [kwAttempt, hw, hs, ih]
      | some r => simp [kwAttempt, hw, hs]

/-- C3 (amended): per keyword window the four patterns are tried in the
fixed priority order and the winner is the first pattern that both matches
within the window and parses — a parse failure falls through to the NEXT
PATTERN of the same window (the code's `except: continue` continues the
inner pattern loop), and only after all four patterns are exhausted does
processing move to the next keyword; the window really is the 50 characters
starting at the keyword's first occurrence. -/
theorem window_pattern_resolution :
    (∀ (today : Date3) (w : List Char),
      tryPatterns today w
        = patList.findSome? fun p =>
            (reSearch p none w).bind fun m => Option.map isoOf (parseMatch today m))
    ∧ (∀ (step : List Char → Option String) (t kw : List Char)
        (kws : List (List Char)),
        (∀ w, findWindow kw t = some w → step w = none) →
        keywordLoop step t (kw :: kws) = keywordLoop step t kws)
    ∧ (∀ (kw t w : List Char), kw ≠ [] → findWindow kw t = some w →
        ∃ i, w = (t.drop i).take 50 ∧ isPrefixL kw (t.drop i) = true
          ∧ ∀ j, j < i → isPrefixL kw (t.drop j) = false) := by
  refine ⟨fun today w => tryPatternsAux_eq_findSome today w patList, ?_, ?_⟩
  · intro step t kw kws h
    rw [keywordLoop]
    cases hw : findWindow kw t with
    | none => rfl
    | some w =>
      show (match step w with
        | some r => some r
        | none => keywordLoop step t kws) = keywordLoop step t kws
      rw [h w hw]
  · intro kw t
    induction t with
    | nil =>
      intro w hkw hw
      rw [findWindow] at hw
      have hke : kw.isEmpty = false := by
        cases kw with
        | nil => exact absurd rfl hkw
        | cons c cs => rfl
      rw [hke] at hw
      simp at hw
    | cons c rest ih =>
      intro w hkw hw
      rw [findWindow] at hw
      by_cases hp : isPrefixL kw (c :: rest) = true
      · rw [hp] at hw
        simp only [if_true] at hw
        refine ⟨0, ?_, hp, fun j hj => absurd hj (Nat.not_lt_zero j)⟩
        simpa using hw.symm
      · rw [Bool.not_eq_true] at hp
        rw [hp] at hw
        simp only [Bool.false_eq_true, if_false] at hw
        obtain ⟨i, hwi, hpi, hearlier⟩ := ih w hkw hw
        refine ⟨i + 1, hwi, hpi, ?_⟩
        intro j hj
        cases j with
        | zero => exact hp
        | succ j' => exact hearlier j' (by omega)

theorem window_pattern_resolution_witness :
    keywordLoop (fun _ => none) "XEXP 01".data ("EXP".data :: []) =
        keywordLoop (fun _ => none) "XEXP 01".data []
    ∧ (∃ i, "EXP 01".data = ("XEXP 01".data.drop i).take 50
        ∧ isPrefixL "EXP".data ("XEXP 01".data.drop i) = true
        ∧ ∀ j, j < i → isPrefixL "EXP".data ("XEXP 01".data.drop j) = false) := by
  constructor
  · exact window_pattern_resolution.2.1 (fun _ => none) "XEXP 01".data
      "EXP".data [] (fun w _ => rfl)
  · exact window_pattern_resolution.2.2 "EXP".data "XEXP 01".data
      "EXP 01".data (by decide) (by decide)

/-- C3 counterexample: on
`EXP 99-99-2030 2030-05-26 BBD 01-01-2031` the first pattern matches
`99-99-2030` in the `EXP` window and fails to parse; the code then tries the
second pattern of the SAME window and returns `2030-05-26`, whereas the
claim's rule (discard the candidate, continue with the next keyword) would
move to the `BBD` window and return `2031-01-01`. -/
theorem window_pattern_resolution_cex :
    extract_expiry_date ⟨2026, 10, 12⟩
        "EXP 99-99-2030 2030-05-26 BBD 01-01-2031".data
      = some "2030-05-26T00:00:00"
    ∧ extract_expiry_date_claim ⟨2026, 10, 12⟩
        "EXP 99-99-2030 2030-05-26 BBD 01-01-2031".data
      = some "2031-01-01T00:00:00"
    ∧ extract_expiry_date ⟨2026, 10, 12⟩
        "EXP 99-99-2030 2030-05-26 BBD 01-01-2031".data
      ≠ extract_expiry_date_claim ⟨2026, 10, 12⟩
        "EXP 99-99-2030 2030-05-26 BBD 01-01-2031".data := by
  refine ⟨by decide, by decide, by decide⟩

theorem findSome_first_hit {α β : Type} (f : α → Option β) :
    ∀ (l : List α) (i : Nat) (h : i < l.length) (d : β),
      (∀ j (hj : j < i), f (l.get ⟨j, Nat.lt_trans hj h⟩) = none) →
      f (l.get ⟨i, h⟩) = some d → l.findSome? f = some d := by
  intro l
  induction l with
  | nil =>
    intro i h
    exact absurd h (Nat.not_lt_zero i)
  | cons a as ih =>
    intro i h d hearly hhit
    cases i with
    | zero =>
      rw [List.findSome?_cons]
      have : f a = some d := hhit
      rw [this]
    | succ i' =>
      rw [List.findSome?_cons]
      have hz : f a = none := hearly 0 (Nat.succ_pos i')
      rw [hz]
      exact ih i' (Nat.lt_of_succ_lt_succ h) d
        (fun j hj => hearly (j + 1) (Nat.succ_lt_succ hj)) hhit

/-- C4: the keyword that wins is the one earliest in the fixed priority list
among those whose window yields a successful parse, regardless of where the
keywords occur in the text: if every keyword before position `i` of the list
yields nothing and keyword `i` yields `d`, the extractor returns `d`. -/
theorem extract_keyword_priority (today : Date3) (text : List Char) (i : Nat)
    (h : i < keywordList.length) (d : String)
    (hearly : ∀ j (hj : j < i),
      kwAttempt today (text.map upChar) (keywordList.get ⟨j, Nat.lt_trans hj h⟩) = none)
    (hhit : kwAttempt today (text.map upChar) (keywordList.get ⟨i, h⟩) = some d) :
    extract_expiry_date today text = some d := by
  have hks : keywordLoop (tryPatterns today) (text.map upChar) keywordList
      = some d := by
    rw [keywordLoop_eq_findSome]
    exact findSome_first_hit (kwAttempt today (text.map upChar)) keywordList
      i h d hearly hhit
  show (match keywordLoop (tryPatterns today) (text.map upChar) keywordList with
    | some r => some r
    | none => tryPatterns today (text.map upChar)) = some d
  rw [hks]

/-- The specification's own keyword-priority example: `EXP` precedes
`BEST BEFORE` in the priority list, so even though `BEST BEFORE` occurs
first in the text, the `EXP`-anchored date wins. -/
theorem extract_keyword_priority_witness :
    extract_expiry_date ⟨2026, 10, 12⟩
        "BEST BEFORE 01/02/2030 EXP 03-04-2031".data
      = some "2031-04-03T00:00:00" := by
  refine extract_keyword_priority ⟨2026, 10, 12⟩
    "BEST BEFORE 01/02/2030 EXP 03-04-2031".data 0 (by decide)
    "2031-04-03T00:00:00" ?_ (by decide)
  intro j hj
  exact absurd hj (Nat.not_lt_zero j)

/-- C5 counterexample: on `26 JAN 2030` no keyword occurs, the date is
recovered only by the fallback scan of the whole text, and the route still
answers `confidence = "high"` — refuting the claim that fallback-recovered
dates do not carry high confidence. -/
theorem confidence_fallback_cex :
    keywordLoop (tryPatterns ⟨2026, 10, 12⟩) ("26 JAN 2030".data.map upChar)
        keywordList = none
    ∧ extract_expiry_date ⟨2026, 10, 12⟩ "26 JAN 2030".data
        = some "2030-01-26T00:00:00"
    ∧ (extract_expiry_from_image ⟨2026, 10, 12⟩ "26 JAN 2030".data).confidence
        = "high" := by
  refine ⟨by decide, by decide, by decide⟩

/-- C5 (amended): the route's confidence is `"high"` exactly when extraction
succeeded — keyword-anchored or fallback alike — and the success flag agrees
with it. -/
theorem confidence_iff_success (today : Date3) (text : List Char) :
    ((extract_expiry_from_image today text).confidence = "high"
      ↔ (extract_expiry_date today text).isSome = true)
    ∧ ((extract_expiry_from_image today text).success = true
      ↔ (extract_expiry_date today text).isSome = true) := by
  unfold extract_expiry_from_image
  cases h : extract_expiry_date today text <;> simp

/-- C8 counterexample: the extractor's output depends on the day the call is
made.  `EXP 05/2030` matches only the `MM<sep>YYYY` pattern, whose missing
day dateutil fills from the current date: on 2026-03-15 the result is
`2030-05-15`, on 2026-03-16 it is `2030-05-16`. -/
theorem extract_now_dependence_cex :
    extract_expiry_date ⟨2026, 3, 15⟩ "EXP 05/2030".data
        = some "2030-05-15T00:00:00"
    ∧ extract_expiry_date ⟨2026, 3, 16⟩ "EXP 05/2030".data
        = some "2030-05-16T00:00:00"
    ∧ extract_expiry_date ⟨2026, 3, 15⟩ "EXP 05/2030".data
        ≠ extract_expiry_date ⟨2026, 3, 16⟩ "EXP 05/2030".data := by
  refine ⟨by decide, by decide, by decide⟩

/-- C8 (amended): the extractor is a pure function of the input text and the
current date; the current date enters only through parsing of the
day-less `MM<sep>YYYY` matches — parses of the three full-date shapes are
identical on any two invocation dates. -/
theorem parseMatch_full_shapes_date_independent (t1 t2 : Date3) :
    (∀ a b y, parseMatch t1 (DateMatch.dmy a b y)
        = parseMatch t2 (DateMatch.dmy a b y))
    ∧ (∀ y b c, parseMatch t1 (DateMatch.ymd y b c)
        = parseMatch t2 (DateMatch.ymd y b c))
    ∧ (∀ d m y, parseMatch t1 (DateMatch.dMonY d m y)
        = parseMatch t2 (DateMatch.dMonY d m y)) :=
  ⟨fun _ _ _ => rfl, fun _ _ _ => rfl, fun _ _ _ => rfl⟩

/-- Embedding of `preprocess_image_for_ocr` (server.py lines 143-158).  The
OpenCV calls are parameters: `imdecode` returns `None` on bytes that do not
decode as an image, whereupon `cvtColor(None, ...)` raises — modelled as the
`DecodeError` branch; otherwise grayscale, Otsu threshold and denoise are
applied in sequence and their composite is returned. -/
def preprocess_image_for_ocr {Img : Type} (imdecode : List Nat → Option Img)
    (cvtColor thresholdOtsu denoise : Img → Img) (image_bytes : List Nat) :
    Except String Img :=
  match imdecode image_bytes with
  | none => Except.error "DecodeError"
  | some img => Except.ok (denoise (thresholdOtsu (cvtColor img)))

/-- Embedding of the `/ocr/expiry` route body from the decoded image bytes
on (server.py lines 425-448): preprocess, then OCR (`recognize` models
`pytesseract.image_to_string`), then date extraction and response assembly;
an exception inside preprocessing surfaces as the route's error (HTTP 500)
and no recognition happens. -/
def ocrExpiryRoute {Img : Type} (imdecode : List Nat → Option Img)
    (cvtColor thresholdOtsu denoise : Img → Img)
    (recognize : Img → List Char) (today : Date3) (image_bytes : List Nat) :
    Except String OCRResp :=
  match preprocess_image_for_ocr imdecode cvtColor thresholdOtsu denoise
      image_bytes with
  | Except.error e => Except.error e
  | Except.ok bmp => Except.ok (extract_expiry_from_image today (recognize bmp))

/-- C9: bytes that do not decode as an image make the route fail with the
decode error, before any recognition attempt: the outcome is the error and
is independent of the recognizer; the decode is consulted once and not
retried. -/
theorem decode_failure_before_recognition {Img : Type}
    (imdecode : List Nat → Option Img)
    (cvtColor thresholdOtsu denoise : Img → Img) (today : Date3)
    (image_bytes : List Nat) (h : imdecode image_bytes = none) :
    (∀ recognize : Img → List Char,
      ocrExpiryRoute imdecode cvtColor thresholdOtsu denoise recognize today
          image_bytes = Except.error "DecodeError")
    ∧ (∀ rec1 rec2 : Img → List Char,
      ocrExpiryRoute imdecode cvtColor thresholdOtsu denoise rec1 today
          image_bytes
        = ocrExpiryRoute imdecode cvtColor thresholdOtsu denoise rec2 today
          image_bytes) := by
  have hpre : preprocess_image_for_ocr imdecode cvtColor thresholdOtsu denoise
      image_bytes = Except.error "DecodeError" := by
    unfold preprocess_image_for_ocr
    rw [h]
  constructor
  · intro recognize
    unfold ocrExpiryRoute
    rw [hpre]
  · intro r1 r2
    unfold ocrExpiryRoute
    rw [hpre]

theorem decode_failure_before_recognition_witness :
    ocrExpiryRoute (fun _ => (none : Option Unit)) id id id
        (fun _ => "EXP 01-01-2030".data) ⟨2026, 10, 12⟩ [0, 1, 2]
      = Except.error "DecodeError" :=
  (decode_failure_before_recognition (fun _ => (none : Option Unit)) id id id
    ⟨2026, 10, 12⟩ [0, 1, 2] rfl).1 (fun _ => "EXP 01-01-2030".data)

theorem computeMatch_spec_witness :
    computeMatch (["rice", "lentils"].map strLower) (["lentils"].map strLower)
        ["rice", "lentils", "onion"]
      = ⟨["rice", "lentils"], ["onion"], ["lentils"], 11, 1⟩ :=
  (computeMatch_spec ["rice", "lentils"] ["lentils"]
    ["rice", "lentils", "onion"]).2

theorem computeMatch_partition_witness :
    (computeMatch ["rice"] [] ["rice", "onion"]).available.length
      + (computeMatch ["rice"] [] ["rice", "onion"]).missing.length = 2 :=
  (computeMatch_partition ["rice"] [] ["rice", "onion"]).2.2.1

theorem get_recipe_suggestions_ranking_witness :
    (get_recipe_suggestions RECIPE_DATABASE ["rice", "lentils"] ["lentils"]
      3).length = 3 :=
  (get_recipe_suggestions_ranking RECIPE_DATABASE ["rice", "lentils"]
    ["lentils"] 3).2.1

theorem confidence_iff_success_witness :
    (extract_expiry_from_image ⟨2026, 10, 12⟩ "EXP 01-01-2030".data).confidence
      = "high" :=
  (confidence_iff_success ⟨2026, 10, 12⟩ "EXP 01-01-2030".data).1.mpr (by decide)

theorem parseMatch_full_shapes_date_independent_witness :
    parseMatch ⟨2026, 3, 15⟩ (DateMatch.dmy 1 2 2030)
      = parseMatch ⟨2026, 3, 16⟩ (DateMatch.dmy 1 2 2030) :=
  (parseMatch_full_shapes_date_independent ⟨2026, 3, 15⟩ ⟨2026, 3, 16⟩).1 1 2 2030

end FoodPlanner
